import Mathlib

/-!
Verification of the rule-based email classification and deadline-extraction
engine of the SE_Project repository (`src/main_demo.py`, with the reminder
schedule of `src/calendar_integration.py`).

The Python code is shallowly embedded as executable Lean definitions.
Machine-independent abstractions:
* `dateutil.parser.parse` (a large third-party fuzzy date parser) is a
  function parameter `du : String → Option DateTime`; `none` models a raised
  exception.  Likewise the regex match extraction `re.findall` over the
  fixed pattern list is a parameter `fa : String → List String` returning, in
  pattern order, the captured group of every match.
* `datetime.now()` is a parameter `now : DateTime`; dates are modelled with
  the proleptic Gregorian day count `Date.toDays`, so `(a - b).days` becomes
  `(toDays a : Int) - toDays b`.  Seconds/microseconds are below the
  granularity used by the code and are modelled as zero.
* The Google-calendar event search performed by `check_event_exists` when a
  calendar service is supplied is a parameter
  `cal : Option (EmailData → String → Bool)`; the claims under study all fix
  `cal = none` (no calendar service supplied).
* Python dicts become structures; an absent/`None` id is the empty string,
  matching Python truthiness of `email_data.get('id')`.
* `deadline_date` travels as the `%Y-%m-%d` string produced by `strftime`
  and is re-parsed by `parseIsoDate`, the model of
  `datetime.fromisoformat` restricted to the shape this program produces.
-/

namespace EmailReminder

/-! ### Characters and strings -/

def isDigitCh (c : Char) : Bool := '0' ≤ c && c ≤ '9'

def isWordCh (c : Char) : Bool := c.isAlphanum || c == '_'

def lowerStr (s : String) : String := ⟨s.data.map Char.toLower⟩

def upperStr (s : String) : String := ⟨s.data.map Char.toUpper⟩

def stripChars (l : List Char) : List Char :=
  ((l.dropWhile Char.isWhitespace).reverse.dropWhile Char.isWhitespace).reverse

/-- Python `str.strip()` (whitespace at both ends). -/
def pyStrip (s : String) : String := ⟨stripChars s.data⟩

def isPre : List Char → List Char → Bool
  | [], _ => true
  | _ :: _, [] => false
  | a :: as, b :: bs => a == b && isPre as bs

def subAux (needle : List Char) : List Char → Bool
  | [] => needle.isEmpty
  | c :: rest => isPre needle (c :: rest) || subAux needle rest

/-- Python `needle in hay` substring containment. -/
def strContains (hay needle : String) : Bool := subAux needle.data hay.data

def joinComma : List String → String
  | [] => ""
  | [a] => a
  | a :: rest => a ++ ", " ++ joinComma rest

def optStr : Option String → String
  | some t => t
  | none => "None"

/-! ### Dates -/

structure Date where
  year : Nat
  month : Nat
  day : Nat
deriving DecidableEq

structure DateTime where
  year : Nat
  month : Nat
  day : Nat
  hour : Nat
  minute : Nat
deriving DecidableEq

def DateTime.date (t : DateTime) : Date := ⟨t.year, t.month, t.day⟩

def isLeap (y : Nat) : Bool := decide (y % 4 = 0 ∧ y % 100 ≠ 0) || decide (y % 400 = 0)

def daysInMonth (y m : Nat) : Nat :=
  if m = 2 then (if isLeap y then 29 else 28)
  else if m = 4 ∨ m = 6 ∨ m = 9 ∨ m = 11 then 30 else 31

def cumDays (m : Nat) : Nat :=
  if m ≤ 1 then 0 else if m = 2 then 31 else if m = 3 then 59 else if m = 4 then 90
  else if m = 5 then 120 else if m = 6 then 151 else if m = 7 then 181 else if m = 8 then 212
  else if m = 9 then 243 else if m = 10 then 273 else if m = 11 then 304 else 334

/-- Proleptic Gregorian day count; `(a - b).days` of Python is
`(toDays a : Int) - toDays b`. -/
def Date.toDays (d : Date) : Nat :=
  365 * (d.year - 1) + (d.year - 1) / 4 - (d.year - 1) / 100 + (d.year - 1) / 400
    + cumDays d.month + (if isLeap d.year ∧ 3 ≤ d.month then 1 else 0) + d.day

/-- Linear key realising the lexicographic `datetime` order used by
`found_dates.sort(key=lambda x: x['parsed'])` (valid datetimes have
`hour < 24`, `minute < 60`). -/
def DateTime.key (t : DateTime) : Nat := t.date.toDays * 1440 + t.hour * 60 + t.minute

def pad2 (n : Nat) : String := if n < 10 then "0" ++ toString n else toString n

/-- Python `strftime('%Y-%m-%d')` (years of interest are four-digit). -/
def fmtDate (d : Date) : String := toString d.year ++ "-" ++ pad2 d.month ++ "-" ++ pad2 d.day

/-- Python `strftime('%H:%M')`. -/
def fmtHM (h m : Nat) : String := pad2 h ++ ":" ++ pad2 m

def digVal (c : Char) : Option Nat :=
  if isDigitCh c then some (c.toNat - 48) else none

/-- `datetime.fromisoformat` restricted to the `%Y-%m-%d` strings this
program produces; `none` models the raised `ValueError`. -/
def parseIsoDate (s : String) : Option Date :=
  match s.data with
  | [y1, y2, y3, y4, h1, m1, m2, h2, d1, d2] =>
    if h1 = '-' ∧ h2 = '-' then
      match digVal y1, digVal y2, digVal y3, digVal y4,
            digVal m1, digVal m2, digVal d1, digVal d2 with
      | some a, some b, some c, some d, some e, some f, some g, some h =>
        let y := 1000 * a + 100 * b + 10 * c + d
        let mo := 10 * e + f
        let da := 10 * g + h
        if 1 ≤ mo ∧ mo ≤ 12 ∧ 1 ≤ da ∧ da ≤ daysInMonth y mo then some ⟨y, mo, da⟩ else none
      | _, _, _, _, _, _, _, _ => none
    else none
  | _ => none

/-! ### `_parse_date_safely` (main_demo.py lines 55-121) -/

/-- The regex `\b(19|20)\d{2}\b` tested at one position of the string. -/
def yearAt (prev : Option Char) (l : List Char) : Bool :=
  match l with
  | c1 :: c2 :: c3 :: c4 :: rest =>
    (match prev with | none => true | some p => !isWordCh p) &&
    ((c1 == '1' && c2 == '9') || (c1 == '2' && c2 == '0')) &&
    isDigitCh c3 && isDigitCh c4 &&
    (match rest with | [] => true | r :: _ => !isWordCh r)
  | _ => false

def hasYearAux (prev : Option Char) : List Char → Bool
  | [] => false
  | c :: rest => yearAt prev (c :: rest) || hasYearAux (some c) rest

/-- `re.search(r'\b(19|20)\d{2}\b', date_string)` of line 70. -/
def hasExplicitYear (s : String) : Bool := hasYearAux none s.data

/-- `parsed.replace(year=y)` of line 83: `none` models the `ValueError`
raised when the day does not exist in the replacement year (Feb 29). -/
def tryReplaceYear (p : DateTime) (y : Nat) : Option DateTime :=
  if p.day ≤ daysInMonth y p.month then some { p with year := y } else none

/-- `EmailReminderSystem._parse_date_safely`.  `du` stands for
`dateutil.parser.parse(date_string, fuzzy=True, default=datetime(now.year, 1, 1))`,
returning `none` when that call raises. -/
def parse_date_safely (du : String → Option DateTime) (now : DateTime)
    (date_string : String) (from_subject : Bool) : Option DateTime :=
  match du date_string with
  | none => none
  | some parsed =>
    let has_year := hasExplicitYear date_string
    let dd : Int := (parsed.date.toDays : Int) - (now.date.toDays : Int)
    let days_past : Int := if dd < 0 then -dd else 0
    let step1 : Option DateTime :=
      if has_year = false ∧ parsed.year = now.year then
        if dd < 0 ∧ days_past ≤ 45 then
          some (match tryReplaceYear parsed (now.year + 1) with
                | some q => q
                | none => parsed)
        else if dd < 0 ∧ 45 < days_past then none
        else if dd < 0 ∧ from_subject = true then none
        else if dd = 0 ∧ parsed.hour = 0 ∧ parsed.minute = 0 ∧ from_subject = true then none
        else some parsed
      else some parsed
    match step1 with
    | none => none
    | some p2 =>
      if now.date.toDays < p2.date.toDays then some p2
      else if p2.date = now.date ∧ now.hour < p2.hour then some p2
      else none

/-! ### `classify_email_rule_based` (main_demo.py lines 123-177) -/

structure EmailData where
  id : String
  subject : String
  body : String
  sender : String
  date : String
deriving DecidableEq

structure Classification where
  is_job_related : Bool
  reason : String
  category : String
  urgency : String
  matched_keywords : List String
deriving DecidableEq

/-- `self.job_keywords` of lines 14-28. -/
def job_keywords : List String :=
  ["job", "career", "position", "role", "internship", "fellowship",
   "application", "apply", "hiring", "recruitment", "interview",
   "assessment", "coding challenge", "technical interview",
   "opportunity", "opening", "vacancy", "employment",
   "deadline", "due", "expires", "closing date", "last date",
   "application due", "submit by", "deadline:", "due date",
   "hr@", "careers@", "recruitment@", "jobs@", "hiring@",
   "noreply@company", ".edu", "university", "college"]

/-- `f"{subject} {body} {sender}"` with every part case-folded (lines 127-132). -/
def allTextOf (e : EmailData) : String :=
  lowerStr e.subject ++ " " ++ lowerStr e.body ++ " " ++ lowerStr e.sender

/-- The keywords found in the combined text, in lexicon order (lines 135-141);
`job_score` of the code is the length of this list. -/
def matchedKeywordsOf (e : EmailData) : List String :=
  job_keywords.filter (fun k => strContains (allTextOf e) (lowerStr k))

/-- `any(domain in sender for domain in ['careers@', 'hr@', 'recruitment@', 'jobs@'])`
of line 166. -/
def recruitingSender (e : EmailData) : Bool :=
  strContains (lowerStr e.sender) "careers@" || strContains (lowerStr e.sender) "hr@" ||
  strContains (lowerStr e.sender) "recruitment@" || strContains (lowerStr e.sender) "jobs@"

def classify_email_rule_based (e : EmailData) : Classification :=
  let all_text := allTextOf e
  let matched := matchedKeywordsOf e
  let job_score := matched.length
  let catUrg : String × String :=
    if 2 ≤ job_score then
      if strContains all_text "interview" || strContains all_text "interview invitation" then
        ("interview", "high")
      else if strContains all_text "deadline" || strContains all_text "due" ||
          strContains all_text "application" then
        ("application", "medium")
      else if strContains all_text "assessment" || strContains all_text "coding challenge" ||
          strContains all_text "test" then
        ("assessment", "high")
      else ("job_posting", "medium")
    else ("other", "low")
  let is0 : Bool := decide (2 ≤ job_score)
  let is1 : Bool := if recruitingSender e then true else is0
  let urg : String :=
    if recruitingSender e then (if catUrg.2 = "low" then "medium" else catUrg.2) else catUrg.2
  { is_job_related := is1
    reason := if matched.isEmpty then "No job keywords found"
              else "Matched keywords: " ++ joinComma (matched.take 3)
    category := catUrg.1
    urgency := urg
    matched_keywords := matched }

/-! ### `extract_deadlines_rule_based` (main_demo.py lines 179-296) -/

structure DateCand where
  text : String
  parsed : DateTime
  date_str : String
  time_str : Option String
  source : String
deriving DecidableEq

structure DeadlineInfo where
  has_deadline : Bool
  deadline_date : Option String
  deadline_time : Option String
  tzField : Option String
  deadline_text : Option String
  deadline_type : String
  descr : Option String
  all_found_dates : List DateCand
  all_deadline_texts : List String
deriving DecidableEq

/-- `'fwd:' in subject.lower() or 'fw:' in subject.lower() or 're:' in subject.lower()`
of line 191: substring containment, not a prefix test. -/
def isForwarded (subject : String) : Bool :=
  strContains (lowerStr subject) "fwd:" || strContains (lowerStr subject) "fw:" ||
  strContains (lowerStr subject) "re:"

/-- One search loop of lines 201-219 / 227-246: every captured match, filtered by
`if not match or len(match.strip()) < 3: continue`, parsed by
`_parse_date_safely`, becoming a candidate dict on success. -/
def scanDates (fa : String → List String) (du : String → Option DateTime) (now : DateTime)
    (text : String) (from_subject : Bool) : List DateCand :=
  ((fa text).filter (fun m => !(m == "") && decide (3 ≤ (pyStrip m).length))).filterMap
    (fun m =>
      match parse_date_safely du now m from_subject with
      | none => none
      | some p => some
          { text := m, parsed := p, date_str := fmtDate p.date,
            time_str := if p.hour ≠ 0 ∨ p.minute ≠ 0 then some (fmtHM p.hour p.minute) else none,
            source := if from_subject then "subject" else "body" })

def bodyCands (fa : String → List String) (du : String → Option DateTime) (now : DateTime)
    (body : String) : List DateCand :=
  scanDates fa du now body false

/-- Subject candidates, scanned only when there is no body candidate on a date
other than today and the message is not forwarded (lines 221-250). -/
def subjCands (fa : String → List String) (du : String → Option DateTime) (now : DateTime)
    (subject body : String) : List DateCand :=
  if !((bodyCands fa du now body).any (fun d => decide (d.parsed.date ≠ now.date))) &&
      !(isForwarded subject) then
    scanDates fa du now subject true
  else []

/-- Stable insertion used to model `found_dates.sort(key=lambda x: x['parsed'])`. -/
def insertCand (a : DateCand) : List DateCand → List DateCand
  | [] => [a]
  | b :: bs => if b.parsed.key < a.parsed.key then b :: insertCand a bs else a :: b :: bs

def sortCands : List DateCand → List DateCand
  | [] => []
  | x :: xs => insertCand x (sortCands xs)

def foundSorted (fa : String → List String) (du : String → Option DateTime) (now : DateTime)
    (subject body : String) : List DateCand :=
  sortCands (bodyCands fa du now body ++ subjCands fa du now subject body)

/-- Lines 256-269: after sorting, prefer the first body-sourced candidate,
falling back to the overall earliest. -/
def bestOf (fa : String → List String) (du : String → Option DateTime) (now : DateTime)
    (subject body : String) : Option DateCand :=
  match (foundSorted fa du now subject body).find? (fun d => d.source == "body") with
  | some b => some b
  | none => (foundSorted fa du now subject body).head?

def extract_deadlines_rule_based (fa : String → List String) (du : String → Option DateTime)
    (now : DateTime) (subject body : String) : DeadlineInfo :=
  let all_text := lowerStr (subject ++ " " ++ body)
  let bc := bodyCands fa du now body
  let sc := subjCands fa du now subject body
  let dtexts := sc.foldl (fun acc c => if acc.contains c.text then acc else acc ++ [c.text])
    (bc.map (fun c => c.text))
  let best := bestOf fa du now subject body
  let dtype : String :=
    match best with
    | none => "other"
    | some _ =>
      if strContains all_text "application" || strContains all_text "apply" then "application"
      else if strContains all_text "interview" || strContains all_text "meeting" then "interview"
      else if strContains all_text "assessment" || strContains all_text "test" ||
          strContains all_text "challenge" then "assessment"
      else if strContains all_text "response" || strContains all_text "reply" ||
          strContains all_text "confirm" then "response"
      else if strContains all_text "event" || strContains all_text "conference" ||
          strContains all_text "fair" then "event"
      else "other"
  { has_deadline := best.isSome
    deadline_date := best.map (fun b => b.date_str)
    deadline_time := match best with | some b => b.time_str | none => none
    tzField := none
    deadline_text := match best with | some b => some b.text | none => dtexts.head?
    deadline_type := dtype
    descr := match best with | some _ => some ("Deadline for " ++ dtype) | none => none
    all_found_dates := foundSorted fa du now subject body
    all_deadline_texts := dtexts }

/-! ### `check_event_exists` / `create_calendar_event` (main_demo.py lines 298-465) -/

structure Reminder where
  method : String
  minutes : Nat
deriving DecidableEq

/-- The inline reminder schedule of `create_calendar_event` (lines 428-433):
one day and one hour before, plus one week before for application/assessment
deadlines; nothing extra for interviews. -/
def demoReminders (deadline_type : String) : List Reminder :=
  [⟨"email", 1440⟩, ⟨"popup", 60⟩] ++
    (if deadline_type = "application" ∨ deadline_type = "assessment"
     then [⟨"email", 10080⟩] else [])

/-- `CalendarIntegration._create_reminders` (calendar_integration.py lines 274-295). -/
def createRemindersCal (deadline_type : String) : List Reminder :=
  [⟨"popup", 60⟩, ⟨"email", 1440⟩] ++
    (if deadline_type = "application" ∨ deadline_type = "assessment" then
      [⟨"email", 10080⟩, ⟨"popup", 4320⟩]
    else if deadline_type = "interview" then
      [⟨"email", 2880⟩, ⟨"popup", 180⟩]
    else [])

structure EventDescriptor where
  summary : String
  descText : String
  startDateTime : String
  endDateTime : String
  timeZone : String
  useDefault : Bool
  reminders : List Reminder
  colorId : String
  sourceTitle : String
  sourceUrl : String
  emailId : String
  extDeadlineType : String
  createdBy : String
  originalSender : String
  processedDate : String
deriving DecidableEq

/-- `EmailReminderSystem.check_event_exists`; `cal = none` is
`calendar_service=None`, `some f` abstracts the calendar event search of
lines 320-349 (the surrounding `except` turns a raised error into `False`,
modelled by `parseIsoDate = none`). -/
def check_event_exists (cal : Option (EmailData → String → Bool)) (now : DateTime)
    (st : List String) (email : EmailData) (deadline_date : String) : Bool :=
  if !(email.id == "") && st.contains email.id then true
  else
    match parseIsoDate deadline_date with
    | none => false
    | some d =>
      if d.toDays ≤ now.date.toDays then true
      else
        match cal with
        | none => false
        | some f => f email deadline_date

/-- `self.processed_email_ids.add(email_id)` on the set modelled as a list. -/
def insertId (st : List String) (i : String) : List String :=
  if st.contains i then st else i :: st

inductive CreateOutcome where
  | pyNone : CreateOutcome
  | rejected : String → String → CreateOutcome
  | duplicate : String → CreateOutcome
  | event : EventDescriptor → CreateOutcome
deriving DecidableEq

def CreateOutcome.isDup : CreateOutcome → Bool
  | .duplicate _ => true
  | _ => false

def CreateOutcome.isEvent : CreateOutcome → Bool
  | .event _ => true
  | _ => false

def CreateOutcome.reminderMinutes : CreateOutcome → Option (List Nat)
  | .event e => some (e.reminders.map (fun r => r.minutes))
  | _ => none

/-- The event dict built at lines 400-465 (`tz` is
`os.getenv('DEFAULT_TIMEZONE', 'Asia/Kolkata')`; dict values stored in the
`None` state render as the string `"None"` inside the f-string, per Python). -/
def buildDescriptor (tz : String) (now : DateTime) (email : EmailData) (dinfo : DeadlineInfo)
    (event_date : String) : EventDescriptor :=
  let deadline_type := dinfo.deadline_type
  let event_title :=
    if deadline_type ≠ "other" then upperStr deadline_type ++ " DEADLINE: " ++ email.subject
    else "DEADLINE: " ++ email.subject
  let descText := pyStrip ("\nJob Deadline Reminder\n\nSubject: " ++ email.subject ++
    "\nFrom: " ++ email.sender ++ "\nDeadline Type: " ++ deadline_type ++
    "\nDeadline Date: " ++ event_date ++ "\n\nDetails: " ++ optStr dinfo.deadline_text ++
    "\nAction Required: " ++ optStr dinfo.descr ++ "\n\nReceived: " ++ email.date ++ "\n")
  let event_time :=
    match dinfo.deadline_time with
    | some t => if t = "" then "23:59" else t
    | none => "23:59"
  let deadline_str := event_date ++ "T" ++ event_time ++ ":00"
  { summary := event_title
    descText := descText
    startDateTime := deadline_str
    endDateTime := deadline_str
    timeZone := tz
    useDefault := false
    reminders := demoReminders deadline_type
    colorId := "11"
    sourceTitle := "Email Reminder System"
    sourceUrl := "mailto:" ++ email.sender
    emailId := email.id
    extDeadlineType := deadline_type
    createdBy := "email_reminder_system"
    originalSender := email.sender
    processedDate := fmtDate now.date ++ " " ++ fmtHM now.hour now.minute ++ ":00" }

/-- `EmailReminderSystem.create_calendar_event`, returning the outcome together
with the updated `processed_email_ids` state. -/
def create_calendar_event (cal : Option (EmailData → String → Bool)) (tz : String)
    (now : DateTime) (st : List String) (email : EmailData) (dinfo : DeadlineInfo) :
    CreateOutcome × List String :=
  if dinfo.has_deadline = false then (.pyNone, st)
  else
    match dinfo.deadline_date with
    | none => (.pyNone, st)
    | some event_date =>
      if event_date = "" then (.pyNone, st)
      else
        match parseIsoDate event_date with
        | none => (.pyNone, st)
        | some dd =>
          if dd.toDays ≤ now.date.toDays then
            (.rejected "past_deadline" ("Deadline " ++ event_date ++ " has passed or is today"),
             st)
          else if check_event_exists cal now st email event_date then
            (.duplicate "Event already exists or email already processed", st)
          else
            let st2 := if email.id = "" then st else insertId st email.id
            (.event (buildDescriptor tz now email dinfo event_date), st2)

/-! ### Concrete instances used by witnesses and counterexamples

Each `du…` value records what `dateutil.parser.parse` returns on the given
string (anchored to `default=datetime(now.year, 1, 1)`), and each `fa…` value
what the `deadline_patterns` regex loop captures from the given text. -/

def now1 : DateTime := ⟨2026, 10, 12, 9, 0⟩

def fa1 : String → List String := fun t =>
  if t = "Deadline is December 20, 2026." then ["December 20, 2026"] else []

def du1 : String → Option DateTime := fun s =>
  if s = "December 20, 2026" then some ⟨2026, 12, 20, 0, 0⟩ else none

def nowC2a : DateTime := ⟨2026, 1, 10, 9, 0⟩

def duC2a : String → Option DateTime := fun s =>
  if s = "12/30/25" then some ⟨2025, 12, 30, 0, 0⟩ else none

def nowC2b : DateTime := ⟨2024, 3, 5, 9, 0⟩

def duC2b : String → Option DateTime := fun s =>
  if s = "Feb 29" then some ⟨2024, 2, 29, 0, 0⟩ else none

def nowC2w : DateTime := ⟨2026, 10, 12, 9, 0⟩

def duC2w : String → Option DateTime := fun s =>
  if s = "October 5" then some ⟨2026, 10, 5, 0, 0⟩ else none

def nowC3 : DateTime := ⟨2026, 10, 12, 9, 0⟩

def emailC3 : EmailData :=
  ⟨"msg-001", "Application Deadline", "apply by December 1, 2026", "careers@x.com", "2026-10-12"⟩

def dinfoC3 : DeadlineInfo :=
  ⟨true, some "2026-12-01", none, none, some "December 1, 2026", "application",
   some "Deadline for application", [], []⟩

def dinfoC4 : DeadlineInfo :=
  ⟨true, some "2026-10-12", none, none, some "October 12, 2026", "application",
   some "Deadline for application", [], []⟩

def emailC5 : EmailData :=
  ⟨"mid-5", "Interview Invitation", "interview on December 1, 2026", "hr@x.com", "2026-10-12"⟩

def dinfoC5 : DeadlineInfo :=
  ⟨true, some "2026-12-01", none, none, some "December 1, 2026", "interview",
   some "Deadline for interview", [], []⟩

def now6 : DateTime := ⟨2025, 12, 1, 9, 0⟩

def fa6 : String → List String := fun t =>
  if t = "Apply here: Jan 5, 2026" then ["Jan 5, 2026"] else []

def du6 : String → Option DateTime := fun s =>
  if s = "Jan 5, 2026" then some ⟨2026, 1, 5, 0, 0⟩ else none

def now6w : DateTime := ⟨2026, 10, 12, 9, 0⟩

def fa6w : String → List String := fun _ => []

def du6w : String → Option DateTime := fun _ => none

def nowC8 : DateTime := ⟨2026, 10, 12, 9, 0⟩

def duC8 : String → Option DateTime := fun s =>
  if s = "Oct 2" then some ⟨2026, 10, 2, 0, 0⟩ else none

def nowC9 : DateTime := ⟨2026, 1, 1, 14, 10⟩

def duC9 : String → Option DateTime := fun s =>
  if s = "2:50 PM" then some ⟨2026, 1, 1, 14, 50⟩ else none

def nowC9k : DateTime := ⟨2026, 1, 1, 9, 30⟩

def duC9k : String → Option DateTime := fun s =>
  if s = "5:00 PM" then some ⟨2026, 1, 1, 17, 0⟩
  else if s = "9:45 AM" then some ⟨2026, 1, 1, 9, 45⟩ else none

def emailC10 : EmailData :=
  ⟨"", "Assessment due", "complete by December 1, 2026", "jobs@x.com", "2026-10-12"⟩

def dinfoC10 : DeadlineInfo :=
  ⟨true, some "2026-12-01", none, none, some "December 1, 2026", "assessment",
   some "Deadline for assessment", [], []⟩

/-! ### Helper lemmas -/

lemma insertCand_ne_nil (a : DateCand) (l : List DateCand) : insertCand a l ≠ [] := by
  cases l with
  | nil => simp [insertCand]
  | cons b bs =>
    unfold insertCand
    split <;> simp

lemma sortCands_eq_nil {l : List DateCand} (h : sortCands l = []) : l = [] := by
  cases l with
  | nil => rfl
  | cons x xs => exact absurd h (insertCand_ne_nil x (sortCands xs))

lemma mem_insertCand {x a : DateCand} {l : List DateCand} (h : x ∈ insertCand a l) :
    x = a ∨ x ∈ l := by
  induction l with
  | nil => simpa [insertCand] using h
  | cons b bs ih =>
    unfold insertCand at h
    split at h
    · rcases List.mem_cons.mp h with rfl | h2
      · exact Or.inr (List.mem_cons_self _ _)
      · rcases ih h2 with h3 | h3
        · exact Or.inl h3
        · exact Or.inr (List.mem_cons_of_mem _ h3)
    · rcases List.mem_cons.mp h with rfl | h2
      · exact Or.inl rfl
      · exact Or.inr h2

/-- The head of the sorted candidate list is a member of the input and has
minimal datetime key. -/
lemma sortCands_head_min :
    ∀ (l : List DateCand) (c : DateCand) (r : List DateCand), sortCands l = c :: r →
      c ∈ l ∧ ∀ x ∈ l, c.parsed.key ≤ x.parsed.key := by
  intro l
  induction l with
  | nil => intro c r h; simp [sortCands] at h
  | cons a as ih =>
    intro c r h
    rw [sortCands] at h
    cases hs : sortCands as with
    | nil =>
      rw [hs] at h
      have has : as = [] := sortCands_eq_nil hs
      unfold insertCand at h
      injection h with h1 h2
      subst h1
      subst has
      refine ⟨List.mem_cons_self _ _, ?_⟩
      intro x hx
      rcases List.mem_cons.mp hx with rfl | hx2
      · exact Nat.le_refl _
      · cases hx2
    | cons b bs =>
      rw [hs] at h
      have hb := ih b bs hs
      unfold insertCand at h
      split at h
      · rename_i hlt
        injection h with h1 h2
        subst h1
        refine ⟨List.mem_cons_of_mem _ hb.1, ?_⟩
        intro x hx
        rcases List.mem_cons.mp hx with rfl | hx2
        · exact Nat.le_of_lt hlt
        · exact hb.2 x hx2
      · rename_i hge
        injection h with h1 h2
        subst h1
        refine ⟨List.mem_cons_self _ _, ?_⟩
        intro x hx
        rcases List.mem_cons.mp hx with rfl | hx2
        · exact Nat.le_refl _
        · exact Nat.le_trans (Nat.le_of_not_lt hge) (hb.2 x hx2)

lemma mem_sortCands {x : DateCand} {l : List DateCand} (h : x ∈ sortCands l) : x ∈ l := by
  induction l with
  | nil => simpa [sortCands] using h
  | cons a as ih =>
    rw [sortCands] at h
    rcases mem_insertCand h with rfl | h2
    · exact List.mem_cons_self _ _
    · exact List.mem_cons_of_mem _ (ih h2)

/-- Every candidate produced by a scan carries the source tag of that scan. -/
lemma mem_scanDates_source {fa : String → List String} {du : String → Option DateTime}
    {now : DateTime} {t : String} {fs : Bool} {c : DateCand}
    (h : c ∈ scanDates fa du now t fs) : c.source = if fs then "subject" else "body" := by
  simp only [scanDates, List.mem_filterMap] at h
  obtain ⟨m, _, hc⟩ := h
  cases hp : parse_date_safely du now m fs with
  | none => rw [hp] at hc; cases hc
  | some p =>
    rw [hp] at hc
    cases hc
    rfl

lemma find?_eq_head?_of_all {l : List DateCand} {p : DateCand → Bool}
    (h : ∀ x ∈ l, p x = true) : l.find? p = l.head? := by
  cases l with
  | nil => rfl
  | cons a as =>
    rw [List.find?_cons_of_pos _ (h a (List.mem_cons_self _ _))]
    rfl

lemma mem_insertId (st : List String) (i : String) : i ∈ insertId st i := by
  unfold insertId
  split
  · rename_i h
    exact List.mem_of_elem_eq_true h
  · exact List.mem_cons_self _ _

set_option maxHeartbeats 1000000 in
lemma cumDays_le (m : Nat) : cumDays m ≤ 334 := by
  unfold cumDays
  split_ifs <;> omega

/-- The leap-day count `z/4 - z/100 + z/400` grows by at least the leap
indicator of `y` from `z = y - 1` to `z = y`. -/
lemma divCount_step (y : Nat) (hy : 1 ≤ y) :
    (y - 1) / 4 - (y - 1) / 100 + (y - 1) / 400 + (if isLeap y then 1 else 0) ≤
      y / 4 - y / 100 + y / 400 := by
  unfold isLeap
  split_ifs with h
  · have h2 : y % 4 = 0 ∧ y % 100 ≠ 0 ∨ y % 400 = 0 := by
      rcases Bool.or_eq_true_iff.mp h with h3 | h3
      · exact Or.inl (of_decide_eq_true h3)
      · exact Or.inr (of_decide_eq_true h3)
    omega
  · omega

/-- Any date of year `y + 1` lies strictly after any valid date of year `y`. -/
lemma toDays_next_year_gt (nd : Date) (m d : Nat)
    (h1 : 1 ≤ nd.year) (h2 : 1 ≤ nd.month) (h3 : nd.month ≤ 12) (h4 : nd.day ≤ 31)
    (h5 : 1 ≤ d) :
    nd.toDays < (Date.mk (nd.year + 1) m d).toDays := by
  have hcn : cumDays nd.month ≤ 334 := cumDays_le _
  have hstep := divCount_step nd.year h1
  have hadjN : (if isLeap nd.year ∧ 3 ≤ nd.month then 1 else 0) ≤
      (if isLeap nd.year then 1 else 0) := by
    split_ifs with hA hB
    · exact Nat.le_refl _
    · exact absurd hA.1 hB
    all_goals exact Nat.zero_le _
  unfold Date.toDays
  simp only
  generalize (if isLeap nd.year ∧ 3 ≤ nd.month then 1 else 0) = aN at hadjN
  generalize (if isLeap nd.year then 1 else 0) = lY at hadjN hstep
  generalize (if isLeap (nd.year + 1) ∧ 3 ≤ m then 1 else 0) = aM
  have hcm : 0 ≤ cumDays m := Nat.zero_le _
  omega

/-- With no calendar service and a future deadline, the duplicate check
answers true exactly on a non-empty id already in the processed-id set. -/
lemma check_none_future_true {now : DateTime} {st : List String} {e : EmailData} {ds : String}
    {d : Date} (hc : parseIsoDate ds = some d) (hfut : ¬ d.toDays ≤ now.date.toDays)
    (hid : e.id ≠ "") (hm : e.id ∈ st) :
    check_event_exists none now st e ds = true := by
  simp [check_event_exists, hc, hfut, hid, hm]

lemma check_none_future_false {now : DateTime} {st : List String} {e : EmailData} {ds : String}
    {d : Date} (hc : parseIsoDate ds = some d) (hfut : ¬ d.toDays ≤ now.date.toDays)
    (h : e.id = "" ∨ e.id ∉ st) :
    check_event_exists none now st e ds = false := by
  rcases h with h | h <;> simp [check_event_exists, hc, hfut, h]

/-- Every non-`event` outcome of `create_calendar_event` leaves the
processed-id state unchanged. -/
lemma create_nonEvent_state {cal : Option (EmailData → String → Bool)} {tz : String}
    {now : DateTime} {st : List String} {e : EmailData} {dinfo : DeadlineInfo}
    (h : (create_calendar_event cal tz now st e dinfo).1.isEvent = false) :
    (create_calendar_event cal tz now st e dinfo).2 = st := by
  by_cases h1 : dinfo.has_deadline = false
  · simp [create_calendar_event, h1]
  · cases hdd : dinfo.deadline_date with
    | none => simp [create_calendar_event, h1, hdd]
    | some ds =>
      by_cases h2 : ds = ""
      · simp [create_calendar_event, h1, hdd, h2]
      · cases hpi : parseIsoDate ds with
        | none => simp [create_calendar_event, h1, hdd, h2, hpi]
        | some d =>
          by_cases h3 : d.toDays ≤ now.date.toDays
          · simp [create_calendar_event, h1, hdd, h2, hpi, h3]
          · by_cases h4 : check_event_exists cal now st e ds = true
            · simp [create_calendar_event, h1, hdd, h2, hpi, h3, h4]
            · exfalso
              rw [Bool.not_eq_true] at h4
              simp [create_calendar_event, h1, hdd, h2, hpi, h3, h4,
                CreateOutcome.isEvent] at h

/-! ### Claim theorems -/

/-- C7: `classify_email_rule_based` reports `is_job_related = true` exactly when
at least 2 lexicon keywords match the combined subject/body/sender text or the
sender matches a recruiting-domain pattern (`careers@`, `hr@`, `recruitment@`,
`jobs@`); in particular fewer than 2 keywords with a non-recruiting sender gives
`false`, and a recruiting sender gives `true` regardless of score. -/
theorem C7_relevance (e : EmailData) :
    (classify_email_rule_based e).is_job_related =
      (decide (2 ≤ (matchedKeywordsOf e).length) || recruitingSender e) := by
  cases hr : recruitingSender e <;> simp [classify_email_rule_based, hr]

/-- C5 (amended): `CalendarIntegration._create_reminders` produces the base
offsets `{60, 1440}` plus `{10080, 4320}` for application/assessment and
`{2880, 180}` for interview; the descriptor built by
`create_calendar_event` in `main_demo.py` instead carries `[1440, 60]` plus
only `10080` for application/assessment, and nothing extra for interview. -/
theorem C5_reminder_offsets (dt : String) :
    ((createRemindersCal dt).map (fun r => r.minutes) =
      if dt = "application" ∨ dt = "assessment" then [60, 1440, 10080, 4320]
      else if dt = "interview" then [60, 1440, 2880, 180]
      else [60, 1440]) ∧
    ((demoReminders dt).map (fun r => r.minutes) =
      if dt = "application" ∨ dt = "assessment" then [1440, 60, 10080]
      else [1440, 60]) := by
  constructor
  · unfold createRemindersCal
    split_ifs <;> rfl
  · unfold demoReminders
    split_ifs <;> rfl

/-- C5 counterexample: the engine's `create_calendar_event` builds a descriptor
for an interview deadline whose reminder offsets are exactly `[1440, 60]` —
neither 180 nor 2880 minutes is appended, contradicting the claimed interview
reminder set `{60, 1440, 180, 2880}`. -/
theorem C5_counterexample :
    dinfoC5.deadline_type = "interview" ∧
    (create_calendar_event none "Asia/Kolkata" now1 [] emailC5 dinfoC5).1.reminderMinutes =
      some [1440, 60] := by decide

/-- C8: evaluation at the failing input. The subject-sourced candidate
`"Oct 2"` (no explicit year) parsed against today = 2026-10-12 is 10 days in
the past, yet `_parse_date_safely` rolls it to 2027-10-02 and KEEPS it with
`from_subject = True`: the 45-day roll-forward branch precedes the
subject-past-date branch (lines 91-94), which is unreachable. -/
theorem C8_subject_roll :
    duC8 "Oct 2" = some ⟨2026, 10, 2, 0, 0⟩ ∧
    nowC8.date.toDays - (⟨2026, 10, 2⟩ : Date).toDays = 10 ∧
    hasExplicitYear "Oct 2" = false ∧
    parse_date_safely duC8 nowC8 "Oct 2" true = some ⟨2027, 10, 2, 0, 0⟩ := by decide

/-- C9 counterexample: a candidate resolving to today at 14:50, with "now" at
14:10 the same day, has an explicit time-of-day in the future, yet
`_parse_date_safely` discards it: the code compares `parsed.hour > now.hour`,
ignoring minutes. -/
theorem C9_counterexample :
    duC9 "2:50 PM" = some ⟨2026, 1, 1, 14, 50⟩ ∧
    nowC9 = ⟨2026, 1, 1, 14, 10⟩ ∧
    parse_date_safely duC9 nowC9 "2:50 PM" false = none := by decide

/-- C2 counterexample: two date strings without an explicit 4-digit year, each
parsing at most 45 days in the past, that are discarded rather than rolled to
next year: `"12/30/25"` (two-digit year, parses into the previous year, 11 days
past) and `"Feb 29"` (5 days past in leap year 2024; Feb 29 does not exist in
2025, so `replace(year=...)` raises and the original past date is dropped). -/
theorem C2_counterexample :
    (hasExplicitYear "12/30/25" = false ∧
     duC2a "12/30/25" = some ⟨2025, 12, 30, 0, 0⟩ ∧
     nowC2a.date.toDays - (⟨2025, 12, 30⟩ : Date).toDays = 11 ∧
     parse_date_safely duC2a nowC2a "12/30/25" false = none) ∧
    (hasExplicitYear "Feb 29" = false ∧
     duC2b "Feb 29" = some ⟨2024, 2, 29, 0, 0⟩ ∧
     nowC2b.date.toDays - (⟨2024, 2, 29⟩ : Date).toDays = 5 ∧
     parse_date_safely duC2b nowC2b "Feb 29" false = none) := by decide

/-- C6 counterexample: the subject `"Apply here: Jan 5, 2026"` carries none of
the prefixes `fwd:`, `fw:`, `re:`, yet it is treated as forwarded (the code
tests substring containment and `"here:"` contains `"re:"`), so its parseable
subject date is suppressed and no deadline is found even with an empty body. -/
theorem C6_counterexample :
    isForwarded "Apply here: Jan 5, 2026" = true ∧
    isPre "fwd:".data (lowerStr "Apply here: Jan 5, 2026").data = false ∧
    isPre "fw:".data (lowerStr "Apply here: Jan 5, 2026").data = false ∧
    isPre "re:".data (lowerStr "Apply here: Jan 5, 2026").data = false ∧
    parse_date_safely du6 now6 "Jan 5, 2026" true = some ⟨2026, 1, 5, 0, 0⟩ ∧
    (extract_deadlines_rule_based fa6 du6 now6 "Apply here: Jan 5, 2026" "").has_deadline
      = false := by decide

/-- C2 (amended): for a date string without an explicit 4-digit year whose
parse (anchored to the current year) is in the past: if it lands in the
current year at most 45 days back and its month/day exists in the next year,
the year is rolled forward and the candidate kept; if it is at most 45 days
back but the day does not exist next year (Feb 29), or more than 45 days back,
or lands in an earlier year (two-digit year), the candidate is discarded. -/
theorem C2_year_inference (du : String → Option DateTime) (now : DateTime) (s : String)
    (fs : Bool) (p : DateTime)
    (hdu : du s = some p) (hy : hasExplicitYear s = false)
    (hvp1 : 1 ≤ p.month) (hvp2 : p.month ≤ 12) (hvp3 : 1 ≤ p.day)
    (hvn1 : 1 ≤ now.year) (hvn2 : 1 ≤ now.month) (hvn3 : now.month ≤ 12) (hvn4 : now.day ≤ 31)
    (hpast : p.date.toDays < now.date.toDays) :
    (p.year = now.year → now.date.toDays - p.date.toDays ≤ 45 →
        p.day ≤ daysInMonth (now.year + 1) p.month →
        parse_date_safely du now s fs = some { p with year := now.year + 1 }) ∧
    (p.year = now.year → now.date.toDays - p.date.toDays ≤ 45 →
        daysInMonth (now.year + 1) p.month < p.day →
        parse_date_safely du now s fs = none) ∧
    (p.year = now.year → 45 < now.date.toDays - p.date.toDays →
        parse_date_safely du now s fs = none) ∧
    (p.year ≠ now.year → parse_date_safely du now s fs = none) := by
  have hdd : ((p.date.toDays : Int) - (now.date.toDays : Int)) < 0 := by omega
  have hnotlt : ¬ now.date.toDays < p.date.toDays := by omega
  have hnoteq : ¬ (p.date = now.date ∧ now.hour < p.hour) := by
    rintro ⟨he, _⟩
    rw [he] at hpast
    exact Nat.lt_irrefl _ hpast
  refine ⟨?_, ?_, ?_, ?_⟩
  · intro hyr h45 hday
    have h45i : ¬ 45 < (if ((p.date.toDays : Int) - (now.date.toDays : Int)) < 0
        then -((p.date.toDays : Int) - (now.date.toDays : Int)) else 0) := by
      rw [if_pos hdd]; omega
    have hrep : tryReplaceYear p (now.year + 1) = some { p with year := now.year + 1 } := by
      unfold tryReplaceYear
      rw [if_pos hday]
    have hgt : now.date.toDays < ({ p with year := now.year + 1 } : DateTime).date.toDays := by
      exact toDays_next_year_gt now.date p.month p.day hvn1 hvn2 hvn3 hvn4 hvp3
    simp only [parse_date_safely, hdu, hy]
    rw [if_pos ⟨trivial, hyr⟩, if_pos ⟨hdd, by omega⟩, hrep]
    simp only
    rw [if_pos hgt]
  · intro hyr h45 hday
    have hrep : tryReplaceYear p (now.year + 1) = none := by
      unfold tryReplaceYear
      rw [if_neg (by omega)]
    simp only [parse_date_safely, hdu, hy]
    rw [if_pos ⟨trivial, hyr⟩, if_pos ⟨hdd, by rw [if_pos hdd]; omega⟩, hrep]
    simp only
    rw [if_neg hnotlt, if_neg hnoteq]
  · intro hyr h45
    simp only [parse_date_safely, hdu, hy]
    rw [if_pos ⟨trivial, hyr⟩, if_neg (by rw [if_pos hdd]; omega),
      if_pos ⟨hdd, by rw [if_pos hdd]; omega⟩]
  · intro hyr
    simp only [parse_date_safely, hdu, hy]
    rw [if_neg (by rintro ⟨_, h⟩; exact hyr h)]
    simp only
    rw [if_neg hnotlt, if_neg hnoteq]

/-- C2 witness: a candidate 7 days in the past without explicit year
("October 5" against today = 2026-10-12) is rolled forward to 2027-10-05. -/
theorem C2_year_inference_witness :
    parse_date_safely duC2w nowC2w "October 5" false = some ⟨2027, 10, 5, 0, 0⟩ :=
  (C2_year_inference duC2w nowC2w "October 5" false ⟨2026, 10, 5, 0, 0⟩ rfl (by decide)
      (by decide) (by decide) (by decide) (by decide) (by decide) (by decide) (by decide)
      (by decide)).1 (by decide) (by decide) (by decide)

/-- C9 (amended): `_parse_date_safely` discards any candidate whose final
resolved date is not after today, with exactly one exception, proven in both
directions: (1) every kept candidate resolves to a date strictly after today
or to today with its HOUR strictly greater than the current hour; (2) a
candidate resolving to today with hour strictly greater than the current hour
IS kept; (3) a candidate resolving to today with hour at most the current hour
is discarded — minutes are ignored, so a future time-of-day within the current
hour is dropped. -/
theorem C9_future_filter (du : String → Option DateTime) (now : DateTime) (s : String)
    (fs : Bool) :
    (∀ r, parse_date_safely du now s fs = some r →
        now.date.toDays < r.date.toDays ∨ (r.date = now.date ∧ now.hour < r.hour)) ∧
    (∀ p, du s = some p → p.date = now.date → now.hour < p.hour →
        parse_date_safely du now s fs = some p) ∧
    (∀ p, du s = some p → p.date = now.date → p.hour ≤ now.hour →
        parse_date_safely du now s fs = none) := by
  refine ⟨?_, ?_, ?_⟩
  · intro r h
    unfold parse_date_safely at h
    cases hdu : du s with
    | none => rw [hdu] at h; cases h
    | some p =>
      rw [hdu] at h
      simp only at h
      split at h
      · cases h
      · rename_i p2 hstep
        split_ifs at h with h1 h2
        · cases h
          exact Or.inl h1
        · cases h
          exact Or.inr h2
  · intro p hdu hdate hhour
    have hh0 : p.hour ≠ 0 := by omega
    simp [parse_date_safely, hdu, hdate, hh0, hhour]
  · intro p hdu hdate hhour
    have hnlt : ¬ now.hour < p.hour := by omega
    simp [parse_date_safely, hdu, hdate, hnlt]
    split_ifs <;> simp [hdate, hnlt]

/-- C9 witness: at 09:30 on 2026-01-01 the today-candidate 17:00 (hour 17 > 9)
is kept, while the today-candidate 09:45 (same hour, future minutes) is
discarded. -/
theorem C9_future_filter_witness :
    parse_date_safely duC9k nowC9k "5:00 PM" false = some ⟨2026, 1, 1, 17, 0⟩ ∧
    parse_date_safely duC9k nowC9k "9:45 AM" false = none :=
  ⟨(C9_future_filter duC9k nowC9k "5:00 PM" false).2.1 ⟨2026, 1, 1, 17, 0⟩ rfl (by decide)
      (by decide),
   (C9_future_filter duC9k nowC9k "9:45 AM" false).2.2 ⟨2026, 1, 1, 9, 45⟩ (by decide)
      (by decide) (by decide)⟩

/-- C4: a deadline dated today or earlier makes `create_calendar_event` return
the `rejected` outcome (with reason `past_deadline`, distinct from
`duplicate`), produce no descriptor, and leave `processed_email_ids`
unchanged; the result is the same for every external calendar lookup, i.e. the
rejection precedes any lookup, and more generally every non-novel outcome
leaves the processed-id state unchanged. -/
theorem C4_past_rejected (cal : Option (EmailData → String → Bool)) (tz : String)
    (now : DateTime) (st : List String) (e : EmailData) (dinfo : DeadlineInfo)
    (ds : String) (d : Date)
    (ha : dinfo.has_deadline = true) (hb : dinfo.deadline_date = some ds)
    (hc : parseIsoDate ds = some d) (hd : d.toDays ≤ now.date.toDays) :
    create_calendar_event cal tz now st e dinfo =
      (.rejected "past_deadline" ("Deadline " ++ ds ++ " has passed or is today"), st) ∧
    ∀ (st2 : List String) (e2 : EmailData) (dinfo2 : DeadlineInfo),
      (create_calendar_event cal tz now st2 e2 dinfo2).1.isEvent = false →
      (create_calendar_event cal tz now st2 e2 dinfo2).2 = st2 := by
  have hne : ds ≠ "" := by
    intro h
    subst h
    simp [parseIsoDate] at hc
  refine ⟨?_, fun st2 e2 dinfo2 h => create_nonEvent_state h⟩
  simp [create_calendar_event, ha, hb, hc, hne, hd]

/-- C4 witness: a deadline equal to today (2026-10-12) is rejected and the
processed-id state is untouched. -/
theorem C4_past_rejected_witness :
    create_calendar_event none "Asia/Kolkata" now1 ["old-id"] emailC3 dinfoC4 =
      (.rejected "past_deadline" ("Deadline " ++ "2026-10-12" ++ " has passed or is today"),
        ["old-id"]) :=
  (C4_past_rejected none "Asia/Kolkata" now1 ["old-id"] emailC3 dinfoC4 "2026-10-12"
    ⟨2026, 10, 12⟩ (by decide) (by decide) (by decide) (by decide)).1

/-- C3: with the same non-empty message id, strictly future deadlines, and no
calendar service, on one engine instance: if the id has not been processed yet
the first `create_calendar_event` call yields an event descriptor (novel) and
the second a duplicate outcome; in general the two calls never both yield a
non-duplicate outcome. -/
theorem C3_dedup (tz : String) (now : DateTime) (st : List String) (e : EmailData)
    (d1 d2 : DeadlineInfo) (ds1 ds2 : String) (dd1 dd2 : Date)
    (hid : e.id ≠ "")
    (h1a : d1.has_deadline = true) (h1b : d1.deadline_date = some ds1)
    (h1c : parseIsoDate ds1 = some dd1) (h1d : now.date.toDays < dd1.toDays)
    (h2a : d2.has_deadline = true) (h2b : d2.deadline_date = some ds2)
    (h2c : parseIsoDate ds2 = some dd2) (h2d : now.date.toDays < dd2.toDays) :
    (e.id ∉ st →
      (create_calendar_event none tz now st e d1).1.isEvent = true ∧
      (create_calendar_event none tz now
          (create_calendar_event none tz now st e d1).2 e d2).1.isDup = true) ∧
    ((create_calendar_event none tz now st e d1).1.isDup = false →
      (create_calendar_event none tz now
          (create_calendar_event none tz now st e d1).2 e d2).1.isDup = true) := by
  have hne1 : ds1 ≠ "" := by intro h; subst h; simp [parseIsoDate] at h1c
  have hne2 : ds2 ≠ "" := by intro h; subst h; simp [parseIsoDate] at h2c
  have hfut1 : ¬ dd1.toDays ≤ now.date.toDays := by omega
  have hfut2 : ¬ dd2.toDays ≤ now.date.toDays := by omega
  by_cases hm : e.id ∈ st
  · have hchk := check_none_future_true h1c hfut1 hid hm
    have h1 : (create_calendar_event none tz now st e d1).1.isDup = true := by
      simp [create_calendar_event, h1a, h1b, h1c, hne1, hfut1, hchk, CreateOutcome.isDup]
    constructor
    · intro hnm
      exact absurd hm hnm
    · intro hfalse
      rw [h1] at hfalse
      cases hfalse
  · have hchk1 := check_none_future_false h1c hfut1 (Or.inr hm)
    have h1 : create_calendar_event none tz now st e d1 =
        (.event (buildDescriptor tz now e d1 ds1), insertId st e.id) := by
      simp [create_calendar_event, h1a, h1b, h1c, hne1, hfut1, hchk1, hid]
    have hchk2 := check_none_future_true h2c hfut2 hid (mem_insertId st e.id)
    have h2 : (create_calendar_event none tz now (insertId st e.id) e d2).1.isDup = true := by
      simp [create_calendar_event, h2a, h2b, h2c, hne2, hfut2, hchk2, CreateOutcome.isDup]
    refine ⟨fun _ => ⟨?_, ?_⟩, fun _ => ?_⟩
    · rw [h1]
      rfl
    · rw [h1]
      exact h2
    · rw [h1]
      exact h2

/-- C3 witness: processing message `msg-001` twice on a fresh instance yields
an event descriptor and then a duplicate. -/
theorem C3_dedup_witness :
    (create_calendar_event none "Asia/Kolkata" nowC3 [] emailC3 dinfoC3).1.isEvent = true ∧
    (create_calendar_event none "Asia/Kolkata" nowC3
        (create_calendar_event none "Asia/Kolkata" nowC3 [] emailC3 dinfoC3).2
        emailC3 dinfoC3).1.isDup = true :=
  (C3_dedup "Asia/Kolkata" nowC3 [] emailC3 dinfoC3 dinfoC3 "2026-12-01" "2026-12-01"
      ⟨2026, 12, 1⟩ ⟨2026, 12, 1⟩ (by decide) (by decide) (by decide) (by decide) (by decide)
      (by decide) (by decide) (by decide) (by decide)).1 (by decide)

/-- C10: for a message with an empty/missing id and a strictly future deadline
(no calendar service), `create_calendar_event` neither consults nor updates
`processed_email_ids`: the call returns a full event descriptor leaving the
state unchanged, and an identical second call returns the very same
descriptor again — in-process deduplication is disabled for id-less
messages. -/
theorem C10_idless_no_dedup (tz : String) (now : DateTime) (st : List String) (e : EmailData)
    (dinfo : DeadlineInfo) (ds : String) (d : Date)
    (hid : e.id = "") (ha : dinfo.has_deadline = true) (hb : dinfo.deadline_date = some ds)
    (hc : parseIsoDate ds = some d) (hd : now.date.toDays < d.toDays) :
    create_calendar_event none tz now st e dinfo =
      (.event (buildDescriptor tz now e dinfo ds), st) ∧
    create_calendar_event none tz now (create_calendar_event none tz now st e dinfo).2 e dinfo =
      (.event (buildDescriptor tz now e dinfo ds), st) := by
  have hne : ds ≠ "" := by intro h; subst h; simp [parseIsoDate] at hc
  have hfut : ¬ d.toDays ≤ now.date.toDays := by omega
  have hchk := @check_none_future_false now st e ds d hc hfut (Or.inl hid)
  have h1 : create_calendar_event none tz now st e dinfo =
      (.event (buildDescriptor tz now e dinfo ds), st) := by
    simp [create_calendar_event, ha, hb, hc, hne, hfut, hchk, hid]
  refine ⟨h1, ?_⟩
  rw [h1]
  exact h1

/-- C10 witness: the id-less message is accepted twice with identical
descriptors and an unchanged (empty) processed-id set. -/
theorem C10_idless_no_dedup_witness :
    create_calendar_event none "Asia/Kolkata" nowC3 [] emailC10 dinfoC10 =
      (.event (buildDescriptor "Asia/Kolkata" nowC3 emailC10 dinfoC10 "2026-12-01"), []) ∧
    create_calendar_event none "Asia/Kolkata" nowC3
        (create_calendar_event none "Asia/Kolkata" nowC3 [] emailC10 dinfoC10).2
        emailC10 dinfoC10 =
      (.event (buildDescriptor "Asia/Kolkata" nowC3 emailC10 dinfoC10 "2026-12-01"), []) :=
  C10_idless_no_dedup "Asia/Kolkata" nowC3 [] emailC10 dinfoC10 "2026-12-01" ⟨2026, 12, 1⟩
    (by decide) (by decide) (by decide) (by decide) (by decide)

/-- C1: when some body candidate resolves to a date other than today, the
subject is never scanned for dates (the subject candidate list is empty), and
the selected deadline is a body-sourced candidate with the earliest parsed
datetime among all body candidates; the extraction then reports that
candidate's date. -/
theorem C1_body_priority (fa : String → List String) (du : String → Option DateTime)
    (now : DateTime) (subject body : String)
    (hb : (bodyCands fa du now body).any (fun d => decide (d.parsed.date ≠ now.date)) = true) :
    subjCands fa du now subject body = [] ∧
    ∃ c, bestOf fa du now subject body = some c ∧ c.source = "body" ∧
      c ∈ bodyCands fa du now body ∧
      (∀ x ∈ bodyCands fa du now body, c.parsed.key ≤ x.parsed.key) ∧
      (extract_deadlines_rule_based fa du now subject body).has_deadline = true ∧
      (extract_deadlines_rule_based fa du now subject body).deadline_date = some c.date_str := by
  have hsubj : subjCands fa du now subject body = [] := by
    unfold subjCands
    rw [hb]
    simp
  have hne : bodyCands fa du now body ≠ [] := by
    intro h0
    rw [h0] at hb
    simp at hb
  have hfound : foundSorted fa du now subject body = sortCands (bodyCands fa du now body) := by
    unfold foundSorted
    rw [hsubj, List.append_nil]
  cases hsort : sortCands (bodyCands fa du now body) with
  | nil => exact absurd (sortCands_eq_nil hsort) hne
  | cons c r =>
    have hmin := sortCands_head_min _ c r hsort
    have hsrc : c.source = "body" := by
      have hs := @mem_scanDates_source fa du now body false c hmin.1
      simpa using hs
    have hfind : (foundSorted fa du now subject body).find? (fun d => d.source == "body")
        = some c := by
      rw [hfound, hsort]
      rw [List.find?_cons_of_pos]
      simp [hsrc]
    have hbest : bestOf fa du now subject body = some c := by
      unfold bestOf
      rw [hfind]
    refine ⟨hsubj, c, hbest, hsrc, hmin.1, hmin.2, ?_, ?_⟩
    · simp [extract_deadlines_rule_based, hbest]
    · simp [extract_deadlines_rule_based, hbest]

/-- C1 witness: a message whose body contains a future-dated deadline skips
subject scanning entirely. -/
theorem C1_body_priority_witness :
    subjCands fa1 du1 now1 "Role open until 11/30/2026" "Deadline is December 20, 2026." = [] :=
  (C1_body_priority fa1 du1 now1 "Role open until 11/30/2026"
    "Deadline is December 20, 2026." (by decide)).1

/-- C6 (amended): a message is detected as forwarded/replied when its
case-folded subject CONTAINS one of `fwd:`, `fw:`, `re:` as a substring
(not only as a prefix); once detected, no subject candidate is ever produced,
so even with no body candidate the extraction yields no deadline. -/
theorem C6_forwarded (fa : String → List String) (du : String → Option DateTime)
    (now : DateTime) (subject body : String) (hf : isForwarded subject = true) :
    subjCands fa du now subject body = [] ∧
    (bodyCands fa du now body = [] →
      (extract_deadlines_rule_based fa du now subject body).has_deadline = false ∧
      (extract_deadlines_rule_based fa du now subject body).deadline_date = none) := by
  have hsubj : subjCands fa du now subject body = [] := by
    unfold subjCands
    rw [hf]
    simp
  refine ⟨hsubj, ?_⟩
  intro hbc
  have hfound : foundSorted fa du now subject body = [] := by
    unfold foundSorted
    rw [hsubj, hbc]
    rfl
  have hbest : bestOf fa du now subject body = none := by
    unfold bestOf
    rw [hfound]
    rfl
  constructor
  · simp [extract_deadlines_rule_based, hbest]
  · simp [extract_deadlines_rule_based, hbest]

/-- C6 witness: a subject starting with `Fwd:` suppresses subject dates. -/
theorem C6_forwarded_witness :
    subjCands fa6w du6w now6w "Fwd: interview January 7, 2027" "no dates here" = [] :=
  (C6_forwarded fa6w du6w now6w "Fwd: interview January 7, 2027" "no dates here"
    (by decide)).1

end EmailReminder
